import Mathlib

/-!
Verification of the Streamlit visualization app (`streamlit_app.py`): a shallow
embedding of the chart builders (`preview_line_bar_chart`,
`preview_horizontal_bar_chart`, `preview_pie_donut_chart`) and of the session
coordinator in `main` (preview polling with a 15-second window versus the
single-read full-session path), together with theorems settling the spec's
claims about them.

Modelling conventions: a dataset column is a list of integers; machine floats
of the source only appear as the pie hole fraction, modelled as a rational;
Python `KeyError` on a missing dataframe column is modelled as an `Except`
error; wall-clock time in the poll loop is modelled as a discrete clock that
advances by 1 per `time.sleep(1)`, with an `exists` check taking no time.
-/

/-- The only failure the three chart builders can raise: indexing a dataframe
with a column name that is not present (Python `KeyError`). -/
inductive BuildError
  | columnNotFound (column : String)
deriving DecidableEq, Repr

/-- A dataframe: named columns of integer cells. -/
structure Dataset where
  cols : List (String × List Int)
deriving DecidableEq, Repr

/-- `df[c]` — column access, `KeyError` when absent. -/
def Dataset.getCol (df : Dataset) (c : String) : Except BuildError (List Int) :=
  match df.cols.lookup c with
  | some v => Except.ok v
  | none => Except.error (BuildError.columnNotFound c)

inductive TraceKind
  | line
  | bar
deriving DecidableEq, Repr

/-- One plotly trace (`go.Scatter` or `go.Bar`) as added by the builders. -/
structure Trace where
  kind : TraceKind
  xValues : List Int
  yValues : List Int
  name : String
  color : String
  secondaryY : Bool
  horizontal : Bool
deriving DecidableEq, Repr

/-- One entry of `st.session_state.line_bar_series`: the source stores plain
strings and compares them (`series["type"] == "Line"`, `series["axis"] == "Right"`). -/
structure LBSeries where
  column : String
  type : String
  axis : String
  color : String
deriving DecidableEq, Repr

/-- One entry of `st.session_state.horizontal_bar_series`. -/
structure HBSeries where
  column : String
  color : String
deriving DecidableEq, Repr

/-- The combined figure state: traces in insertion order plus the layout fields
the source touches (`barmode`, `title`) and whether the subplot grid was created
with a secondary-y spec (`make_subplots(specs=[[\x7b"secondary_y": True\x7d]])`). -/
structure Figure where
  traces : List Trace
  barmode : Option String
  title : String
  secondaryYSpec : Bool
deriving DecidableEq, Repr

/-- `make_subplots(specs=[[\x7b"secondary_y": True\x7d]])` — the combo builder's
starting figure. -/
def emptyComboFigure : Figure :=
  { traces := [], barmode := none, title := "", secondaryYSpec := true }

/-- `go.Figure()` — the horizontal-bar builder's starting figure. -/
def emptyHBFigure : Figure :=
  { traces := [], barmode := none, title := "", secondaryYSpec := false }

/-- The trace built for one series of `preview_line_bar_chart`: `go.Scatter`
when `series["type"] == "Line"`, else `go.Bar`; placed on the secondary y-axis
iff `series["axis"] == "Right"`. -/
def mkLBTrace (df : Dataset) (xAxis : String) (s : LBSeries) : Except BuildError Trace :=
  match df.getCol xAxis with
  | Except.error e => Except.error e
  | Except.ok xs =>
    match df.getCol s.column with
    | Except.error e => Except.error e
    | Except.ok ys =>
      Except.ok
        { kind := if s.type = "Line" then TraceKind.line else TraceKind.bar
          xValues := xs
          yValues := ys
          name := s.column
          color := s.color
          secondaryY := s.axis == "Right"
          horizontal := false }

/-- The `for series in st.session_state.line_bar_series` loop: each iteration
appends one trace to the figure; a missing column aborts with `KeyError`. -/
def addLBTraces (df : Dataset) (xAxis : String) :
    List LBSeries → Figure → Except BuildError Figure
  | [], fig => Except.ok fig
  | s :: rest, fig =>
    match mkLBTrace df xAxis s with
    | Except.error e => Except.error e
    | Except.ok tr => addLBTraces df xAxis rest { fig with traces := fig.traces ++ [tr] }

/-- `VisualizationSession.preview_line_bar_chart`: build all traces, then set
`barmode="stack"` when the bar type is "Stacked Bars", then set the title. -/
def preview_line_bar_chart (df : Dataset) (xAxis title : String)
    (barType : Option String) (series : List LBSeries) : Except BuildError Figure :=
  match addLBTraces df xAxis series emptyComboFigure with
  | Except.error e => Except.error e
  | Except.ok fig =>
    let fig := if barType = some "Stacked Bars" then { fig with barmode := some "stack" } else fig
    Except.ok { fig with title := title }

/-- The trace built for one series of `preview_horizontal_bar_chart`:
`go.Bar(y=df[x_axis], x=df[series["column"]], orientation='h')`. -/
def mkHBTrace (df : Dataset) (xAxis : String) (s : HBSeries) : Except BuildError Trace :=
  match df.getCol xAxis with
  | Except.error e => Except.error e
  | Except.ok ys =>
    match df.getCol s.column with
    | Except.error e => Except.error e
    | Except.ok xs =>
      Except.ok
        { kind := TraceKind.bar
          xValues := xs
          yValues := ys
          name := s.column
          color := s.color
          secondaryY := false
          horizontal := true }

/-- The `for series in st.session_state.horizontal_bar_series` loop. -/
def addHBTraces (df : Dataset) (xAxis : String) :
    List HBSeries → Figure → Except BuildError Figure
  | [], fig => Except.ok fig
  | s :: rest, fig =>
    match mkHBTrace df xAxis s with
    | Except.error e => Except.error e
    | Except.ok tr => addHBTraces df xAxis rest { fig with traces := fig.traces ++ [tr] }

/-- `VisualizationSession.preview_horizontal_bar_chart`. -/
def preview_horizontal_bar_chart (df : Dataset) (xAxis title : String)
    (barType : Option String) (series : List HBSeries) : Except BuildError Figure :=
  match addHBTraces df xAxis series emptyHBFigure with
  | Except.error e => Except.error e
  | Except.ok fig =>
    let fig := if barType = some "Stacked Bars" then { fig with barmode := some "stack" } else fig
    Except.ok { fig with title := title }

/-- Sum of the values of all rows carrying a given label — one cell of
`df.groupby(labels)[values].sum()`. -/
def sumVals (rows : List (Int × Int)) (k : Int) : Int :=
  (rows.filter (fun p => p.1 == k)).foldl (fun a p => a + p.2) 0

/-- Ascending insertion of one key, keeping existing order on the rest. -/
def insertKey (x : Int) : List Int → List Int
  | [] => [x]
  | y :: ys => if x < y then x :: y :: ys else y :: insertKey x ys

/-- Ascending sort of the group keys: pandas `groupby` (default `sort=True`)
emits the groups sorted by key. -/
def sortKeys (l : List Int) : List Int := l.foldr insertKey []

/-- `df.groupby(labels)[values].sum().reset_index()`: one row per distinct
label, rows ordered by ascending label, each carrying the per-group sum. -/
def pieGroups (rows : List (Int × Int)) : List (Int × Int) :=
  (sortKeys (rows.map Prod.fst).dedup).map (fun k => (k, sumVals rows k))

/-- Stable descending insertion by summed value: the inserted (earlier) row
stays ahead of equal-valued rows already present. -/
def insertDesc (x : Int × Int) : List (Int × Int) → List (Int × Int)
  | [] => [x]
  | y :: ys => if y.2 ≤ x.2 then x :: y :: ys else y :: insertDesc x ys

/-- Stable sort, descending by summed value. -/
def sortDescByVal (l : List (Int × Int)) : List (Int × Int) := l.foldr insertDesc []

/-- `DataFrame.nlargest(n, values)` with the default `keep='first'`: the `n`
rows of largest value, ties resolved toward the earlier row of the grouped
frame, result ordered by descending value. -/
def nlargest (n : Nat) (l : List (Int × Int)) : List (Int × Int) :=
  (sortDescByVal l).take n

/-- Hole fraction of a donut chart (`hole=0.4`). -/
def donutHole : ℚ := 0.4

/-- The `go.Pie` data produced by the pie/donut builder. -/
structure PieFigure where
  labels : List Int
  values : List Int
  hole : ℚ
  title : String
deriving DecidableEq, Repr

/-- `VisualizationSession.preview_pie_donut_chart`: group by the labels column
summing the values column; when `largest_items` is truthy (present and
nonzero) keep the `nlargest`; hole `0.4` iff the chart type is `"Donut"`.
The `colourTheme` argument is accepted but never read by the source body. -/
def preview_pie_donut_chart (df : Dataset) (labels values title chartType : String)
    (largestItems : Option Nat) (colourTheme : String) : Except BuildError PieFigure :=
  match df.getCol labels with
  | Except.error e => Except.error e
  | Except.ok ls =>
    match df.getCol values with
    | Except.error e => Except.error e
    | Except.ok vs =>
      let g := pieGroups (ls.zip vs)
      let g :=
        match largestItems with
        | some n => if n = 0 then g else nlargest n g
        | none => g
      Except.ok
        { labels := g.map Prod.fst
          values := g.map Prod.snd
          hole := if chartType = "Donut" then donutHole else 0
          title := title }

/-- Distinct labels in first-encountered dataset order (NOT what the source
computes — see `claimPieGroups`). -/
def firstEncounteredKeys (l : List Int) : List Int :=
  l.foldl (fun acc k => if k ∈ acc then acc else acc ++ [k]) []

/-- Refinement model written from the claim's words, for comparison with
`pieGroups`: "groups rows by the labels column ... breaking ties stably by
first-encountered group order in the dataset". -/
def claimPieGroups (rows : List (Int × Int)) : List (Int × Int) :=
  (firstEncounteredKeys (rows.map Prod.fst)).map (fun k => (k, sumVals rows k))

/-- Top-N selection as the claim words it: stable descending selection over the
first-encountered-order groups. -/
def claimTopN (n : Nat) (rows : List (Int × Int)) : List (Int × Int) :=
  (sortDescByVal (claimPieGroups rows)).take n

/-- Boolean success test on a builder result. -/
def exceptIsOk (r : Except BuildError Figure) : Bool :=
  match r with
  | Except.ok _ => true
  | Except.error _ => false

/-- Character-list prefix test backing `str.startswith`. -/
def charsStartWith : List Char → List Char → Bool
  | _, [] => true
  | [], _ :: _ => false
  | c :: cs, p :: ps => c == p && charsStartWith cs ps

/-- `session_id.startswith('preview_')` — the session-mode classification. -/
def isPreviewSession (sessionId : String) : Bool :=
  charsStartWith sessionId.data "preview_".data

/-- How the config-loading phase of `main` ended. -/
inductive CoordOutcome
  | configLoaded (elapsed : Nat)
  | configurationMissing
  | configurationTimeout (elapsed : Nat)
deriving DecidableEq, Repr

/-- Observable trace of the config-loading phase: how many `exists` checks ran,
how many config reads (`download_as_string`) ran, how many `time.sleep(1)`
calls ran, and the outcome. -/
structure CoordTrace where
  existsChecks : Nat
  reads : Nat
  sleeps : Nat
  outcome : CoordOutcome
deriving DecidableEq, Repr

/-- The poll window of `while time.time() - start_time < 15`. -/
def pollWindowSeconds : Nat := 15

/-- The preview poll loop. `store t` is what `config_blob.exists()` answers at
elapsed time `t`; `fuel` is the remaining whole seconds of the window (the
loop runs while `elapsed < 15`, and `elapsed` advances only through
`time.sleep(1)`, so `fuel = 15 - elapsed`). On a successful check the config
is read exactly once and the loop breaks; on a failed check the loop sleeps
one second and retries; when the window is exhausted the session fails. -/
def pollLoop (store : Nat → Bool) : Nat → Nat → Nat → Nat → CoordTrace
  | 0, t, checks, slept => ⟨checks, 0, slept, CoordOutcome.configurationTimeout t⟩
  | fuel + 1, t, checks, slept =>
    if store t then ⟨checks + 1, 1, slept, CoordOutcome.configLoaded t⟩
    else pollLoop store fuel (t + 1) (checks + 1) (slept + 1)

/-- The config-loading phase of `main`: preview sessions (id starting with
`preview_`) poll for up to 15 seconds; all other sessions do one existence
check and either read once or fail at once with the missing-configuration
error. The `mode` query parameter is accepted here but, as in the source, is
not consulted until after the configuration is loaded. -/
def coordinate (sessionId mode : String) (store : Nat → Bool) : CoordTrace :=
  if isPreviewSession sessionId then
    pollLoop store pollWindowSeconds 0 0 0
  else if store 0 then ⟨1, 1, 0, CoordOutcome.configLoaded 0⟩
  else ⟨1, 0, 0, CoordOutcome.configurationMissing⟩

/-- Example dataset shared by the concrete witnesses. -/
def exDf : Dataset := ⟨[("x", [1, 2]), ("a", [3, 4]), ("b", [5, 6])]⟩

/-- Example dataset for the pie builder: labels column [0, 0, 1] against
values column [10, 5, 3]. -/
def exPieDf : Dataset := ⟨[("lab", [0, 0, 1]), ("val", [10, 5, 3])]⟩

def exSeriesLine : LBSeries := ⟨"a", "Line", "Left", "#000000"⟩

def exSeriesBarR : LBSeries := ⟨"b", "Bar", "Right", "#ff0000"⟩

def exSeriesBad : LBSeries := ⟨"zzz", "Line", "Left", "#000000"⟩

def exHBSeries : HBSeries := ⟨"a", "#00ff00"⟩

/-- The figure `preview_line_bar_chart` builds from `exDf`, x-axis "x",
title "T", no bar type, series `[exSeriesLine, exSeriesBarR]`. -/
def exComboFig : Figure :=
  { traces :=
      [ { kind := TraceKind.line, xValues := [1, 2], yValues := [3, 4], name := "a",
          color := "#000000", secondaryY := false, horizontal := false },
        { kind := TraceKind.bar, xValues := [1, 2], yValues := [5, 6], name := "b",
          color := "#ff0000", secondaryY := true, horizontal := false } ]
    barmode := none
    title := "T"
    secondaryYSpec := true }

/-- As `exComboFig` but built with the "Stacked Bars" bar type. -/
def exComboFigStacked : Figure := { exComboFig with barmode := some "stack" }

/-- The figure `preview_pie_donut_chart` builds from `exPieDf` in "Pie" mode
with no top-N truncation. -/
def exPiePlain : PieFigure := { labels := [0, 1], values := [15, 3], hole := 0, title := "t" }

theorem pollLoop_timeout (store : Nat → Bool) :
    ∀ (fuel t checks slept : Nat),
      (∀ k, t ≤ k → k < t + fuel → store k = false) →
      pollLoop store fuel t checks slept =
        ⟨checks + fuel, 0, slept + fuel, CoordOutcome.configurationTimeout (t + fuel)⟩ := by
  intro fuel
  induction fuel with
  | zero => intro t c s h; simp [pollLoop]
  | succ n ih =>
    intro t c s h
    have h0 : store t = false := h t le_rfl (by omega)
    simp only [pollLoop, h0, Bool.false_eq_true, if_false]
    rw [ih (t + 1) (c + 1) (s + 1) (fun k hk1 hk2 => h k (by omega) (by omega))]
    have e1 : c + 1 + n = c + (n + 1) := by omega
    have e2 : s + 1 + n = s + (n + 1) := by omega
    have e3 : t + 1 + n = t + (n + 1) := by omega
    rw [e1, e2, e3]

theorem pollLoop_found (store : Nat → Bool) (m : Nat) (hm : store m = true)
    (hmin : ∀ k, k < m → store k = false) :
    ∀ (fuel t checks slept : Nat), t ≤ m → m < t + fuel →
      pollLoop store fuel t checks slept =
        ⟨checks + (m - t) + 1, 1, slept + (m - t), CoordOutcome.configLoaded m⟩ := by
  intro fuel
  induction fuel with
  | zero => intro t c s h1 h2; omega
  | succ n ih =>
    intro t c s h1 h2
    rcases Nat.eq_or_lt_of_le h1 with heq | hlt
    · subst heq
      simp [pollLoop, hm]
    · have h0 : store t = false := hmin t hlt
      simp only [pollLoop, h0, Bool.false_eq_true, if_false]
      rw [ih (t + 1) (c + 1) (s + 1) (by omega) (by omega)]
      have e1 : c + 1 + (m - (t + 1)) + 1 = c + (m - t) + 1 := by omega
      have e2 : s + 1 + (m - (t + 1)) = s + (m - t) := by omega
      rw [e1, e2]

/-- C1: for a preview session the coordinator polls the store's existence
check once per second for a 15-second window: if some check inside the window
succeeds, it reads the configuration exactly once and reaches the
config-loaded outcome (in particular a store answering false for the first 14
checks and true on the 15th, i.e. true first at elapsed time 14, still
loads); if no check inside the window succeeds it fails with the
configuration-timeout outcome at exactly 15 elapsed seconds — at, and not
before, the window bound. -/
theorem preview_polling_behaviour (sid mode : String) (store : Nat → Bool)
    (hsid : isPreviewSession sid = true) :
    ((∃ k, k < pollWindowSeconds ∧ store k = true) →
      ∃ t, t < pollWindowSeconds ∧
        coordinate sid mode store = ⟨t + 1, 1, t, CoordOutcome.configLoaded t⟩) ∧
    ((∀ k, k < pollWindowSeconds → store k = false) →
      coordinate sid mode store =
        ⟨pollWindowSeconds, 0, pollWindowSeconds,
          CoordOutcome.configurationTimeout pollWindowSeconds⟩) ∧
    coordinate sid mode (fun k => k == 14) = ⟨15, 1, 14, CoordOutcome.configLoaded 14⟩ := by
  have hc : ∀ st : Nat → Bool, coordinate sid mode st = pollLoop st pollWindowSeconds 0 0 0 := by
    intro st
    simp [coordinate, hsid]
  refine ⟨?_, ?_, ?_⟩
  · intro hex
    have hm := Nat.find_spec hex
    refine ⟨Nat.find hex, hm.1, ?_⟩
    rw [hc]
    have hmin : ∀ k, k < Nat.find hex → store k = false := by
      intro k hk
      have hnot := Nat.find_min hex hk
      cases hsk : store k with
      | false => rfl
      | true => exact absurd ⟨lt_trans hk hm.1, hsk⟩ hnot
    have := pollLoop_found store (Nat.find hex) hm.2 hmin pollWindowSeconds 0 0 0
      (Nat.zero_le _) (by omega)
    rw [this]
    simp
  · intro hall
    rw [hc]
    have := pollLoop_timeout store pollWindowSeconds 0 0 0
      (fun k _ hk2 => hall k (by omega))
    rw [this]
    simp
  · rw [hc]
    have hm14 : (fun k => k == 14) 14 = true := by simp
    have hmin14 : ∀ k, k < 14 → (fun k => k == 14) k = false := by
      intro k hk
      simp only [beq_eq_false_iff_ne]
      omega
    have := pollLoop_found (fun k => k == 14) 14 hm14 hmin14 pollWindowSeconds 0 0 0
      (Nat.zero_le _) (by simp [pollWindowSeconds])
    rw [this]

theorem preview_polling_behaviour_witness :
    coordinate "preview_s" "preview" (fun k => k == 14) =
      ⟨15, 1, 14, CoordOutcome.configLoaded 14⟩ :=
  (preview_polling_behaviour "preview_s" "preview" (fun k => k == 14) rfl).2.2

/-- C2: a non-preview session whose configuration does not exist performs a
single existence check, sleeps zero times and reads nothing, and terminates
at once with the configuration-missing outcome; it never reaches the
config-loaded outcome that precedes rendering. -/
theorem full_missing_config (sid mode : String) (store : Nat → Bool)
    (hsid : isPreviewSession sid = false) (hstore : store 0 = false) :
    coordinate sid mode store = ⟨1, 0, 0, CoordOutcome.configurationMissing⟩ ∧
    ∀ t, (coordinate sid mode store).outcome ≠ CoordOutcome.configLoaded t := by
  have h : coordinate sid mode store = ⟨1, 0, 0, CoordOutcome.configurationMissing⟩ := by
    simp [coordinate, hsid, hstore]
  refine ⟨h, ?_⟩
  intro t
  rw [h]
  simp

theorem full_missing_config_witness :
    coordinate "session42" "full" (fun _ => false) =
      ⟨1, 0, 0, CoordOutcome.configurationMissing⟩ :=
  (full_missing_config "session42" "full" (fun _ => false) rfl rfl).1

/-- C10: the preview-versus-full classification of the config-loading phase is
a function of the session identifier string alone — two identifiers with the
same classification produce identical behaviour whatever the `mode` query
parameter says — and that classification is the only branch point: a preview
identifier always takes the poll loop and any other identifier always takes
the single existence check followed by at most one read. -/
theorem session_mode_classification (sid sid' mode mode' : String) (store : Nat → Bool)
    (h : isPreviewSession sid = isPreviewSession sid') :
    coordinate sid mode store = coordinate sid' mode' store ∧
    (isPreviewSession sid = true →
      coordinate sid mode store = pollLoop store pollWindowSeconds 0 0 0) ∧
    (isPreviewSession sid = false →
      coordinate sid mode store =
        if store 0 then ⟨1, 1, 0, CoordOutcome.configLoaded 0⟩
        else ⟨1, 0, 0, CoordOutcome.configurationMissing⟩) := by
  have h' : isPreviewSession sid' = isPreviewSession sid := h.symm
  cases hb : isPreviewSession sid with
  | false =>
    rw [hb] at h'
    simp [coordinate, hb, h']
  | true =>
    rw [hb] at h'
    simp [coordinate, hb, h']

theorem session_mode_classification_witness :
    coordinate "preview_a" "full" (fun _ => true) =
      coordinate "preview_b" "preview" (fun _ => true) :=
  (session_mode_classification "preview_a" "preview_b" "full" "preview"
    (fun _ => true) rfl).1

theorem mkLBTrace_ok_fields (df : Dataset) (x : String) (s : LBSeries) (t : Trace)
    (h : mkLBTrace df x s = Except.ok t) :
    t.kind = (if s.type = "Line" then TraceKind.line else TraceKind.bar) ∧
    t.name = s.column ∧
    t.secondaryY = (s.axis == "Right") ∧
    (∃ v, df.cols.lookup s.column = some v ∧ t.yValues = v) ∧
    (∃ w, df.cols.lookup x = some w ∧ t.xValues = w) := by
  cases hx : df.cols.lookup x with
  | none => simp [mkLBTrace, Dataset.getCol, hx] at h
  | some w =>
    cases hy : df.cols.lookup s.column with
    | none => simp [mkLBTrace, Dataset.getCol, hx, hy] at h
    | some v =>
      simp only [mkLBTrace, Dataset.getCol, hx, hy, Except.ok.injEq] at h
      subst h
      exact ⟨rfl, rfl, rfl, ⟨v, rfl, rfl⟩, ⟨w, rfl, rfl⟩⟩

theorem addLBTraces_ok_elim (df : Dataset) (x : String) :
    ∀ (series : List LBSeries) (fig₀ fig : Figure),
      addLBTraces df x series fig₀ = Except.ok fig →
      ∃ ts, List.Forall₂ (fun s t => mkLBTrace df x s = Except.ok t) series ts ∧
        fig = { fig₀ with traces := fig₀.traces ++ ts } := by
  intro series
  induction series with
  | nil =>
    intro fig₀ fig h
    simp only [addLBTraces, Except.ok.injEq] at h
    subst h
    exact ⟨[], List.Forall₂.nil, by simp⟩
  | cons s rest ih =>
    intro fig₀ fig h
    cases hmk : mkLBTrace df x s with
    | error e => simp [addLBTraces, hmk] at h
    | ok tr =>
      simp only [addLBTraces, hmk] at h
      rcases ih { fig₀ with traces := fig₀.traces ++ [tr] } fig h with ⟨ts, hts, hfig⟩
      refine ⟨tr :: ts, List.Forall₂.cons hmk hts, ?_⟩
      rw [hfig]
      simp

theorem preview_line_bar_ok_elim (df : Dataset) (x title : String) (bt : Option String)
    (series : List LBSeries) (fig : Figure)
    (h : preview_line_bar_chart df x title bt series = Except.ok fig) :
    ∃ ts, List.Forall₂ (fun s t => mkLBTrace df x s = Except.ok t) series ts ∧
      fig = { traces := ts
              barmode := if bt = some "Stacked Bars" then some "stack" else none
              title := title
              secondaryYSpec := true } := by
  unfold preview_line_bar_chart at h
  cases hadd : addLBTraces df x series emptyComboFigure with
  | error e => rw [hadd] at h; simp at h
  | ok f =>
    rw [hadd] at h
    rcases addLBTraces_ok_elim df x series emptyComboFigure f hadd with ⟨ts, hts, rfl⟩
    refine ⟨ts, hts, ?_⟩
    by_cases hbt : bt = some "Stacked Bars" <;>
      simp [hbt, emptyComboFigure] at h <;> rw [← h] <;> simp [hbt]

theorem mkHBTrace_ok_fields (df : Dataset) (x : String) (s : HBSeries) (t : Trace)
    (h : mkHBTrace df x s = Except.ok t) :
    t.kind = TraceKind.bar ∧
    t.name = s.column ∧
    t.horizontal = true ∧
    (∃ v, df.cols.lookup s.column = some v ∧ t.xValues = v) ∧
    (∃ w, df.cols.lookup x = some w ∧ t.yValues = w) := by
  cases hx : df.cols.lookup x with
  | none => simp [mkHBTrace, Dataset.getCol, hx] at h
  | some w =>
    cases hy : df.cols.lookup s.column with
    | none => simp [mkHBTrace, Dataset.getCol, hx, hy] at h
    | some v =>
      simp only [mkHBTrace, Dataset.getCol, hx, hy, Except.ok.injEq] at h
      subst h
      exact ⟨rfl, rfl, rfl, ⟨v, rfl, rfl⟩, ⟨w, rfl, rfl⟩⟩

theorem addHBTraces_ok_elim (df : Dataset) (x : String) :
    ∀ (series : List HBSeries) (fig₀ fig : Figure),
      addHBTraces df x series fig₀ = Except.ok fig →
      ∃ ts, List.Forall₂ (fun s t => mkHBTrace df x s = Except.ok t) series ts ∧
        fig = { fig₀ with traces := fig₀.traces ++ ts } := by
  intro series
  induction series with
  | nil =>
    intro fig₀ fig h
    simp only [addHBTraces, Except.ok.injEq] at h
    subst h
    exact ⟨[], List.Forall₂.nil, by simp⟩
  | cons s rest ih =>
    intro fig₀ fig h
    cases hmk : mkHBTrace df x s with
    | error e => simp [addHBTraces, hmk] at h
    | ok tr =>
      simp only [addHBTraces, hmk] at h
      rcases ih { fig₀ with traces := fig₀.traces ++ [tr] } fig h with ⟨ts, hts, hfig⟩
      refine ⟨tr :: ts, List.Forall₂.cons hmk hts, ?_⟩
      rw [hfig]
      simp

theorem preview_hb_ok_elim (df : Dataset) (x title : String) (bt : Option String)
    (series : List HBSeries) (fig : Figure)
    (h : preview_horizontal_bar_chart df x title bt series = Except.ok fig) :
    ∃ ts, List.Forall₂ (fun s t => mkHBTrace df x s = Except.ok t) series ts ∧
      fig = { traces := ts
              barmode := if bt = some "Stacked Bars" then some "stack" else none
              title := title
              secondaryYSpec := false } := by
  unfold preview_horizontal_bar_chart at h
  cases hadd : addHBTraces df x series emptyHBFigure with
  | error e => rw [hadd] at h; simp at h
  | ok f =>
    rw [hadd] at h
    rcases addHBTraces_ok_elim df x series emptyHBFigure f hadd with ⟨ts, hts, rfl⟩
    refine ⟨ts, hts, ?_⟩
    by_cases hbt : bt = some "Stacked Bars" <;>
      simp [hbt, emptyHBFigure] at h <;> rw [← h] <;> simp [hbt]

theorem forall₂_ok_unique {α β : Type _} (F : α → Except BuildError β) :
    ∀ (l : List α) (ts ts' : List β),
      List.Forall₂ (fun s t => F s = Except.ok t) l ts →
      List.Forall₂ (fun s t => F s = Except.ok t) l ts' → ts = ts' := by
  intro l
  induction l with
  | nil =>
    intro ts ts' h h'
    rw [List.forall₂_nil_left_iff] at h h'
    rw [h, h']
  | cons a l ih =>
    intro ts ts' h h'
    rcases List.forall₂_cons_left_iff.mp h with ⟨b, u, hab, hu, rfl⟩
    rcases List.forall₂_cons_left_iff.mp h' with ⟨b', u', hab', hu', rfl⟩
    rw [hab] at hab'
    injection hab' with hbb
    rw [hbb, ih u u' hu hu']

theorem forall₂_any_secondary (df : Dataset) (x : String)
    (series : List LBSeries) (ts : List Trace)
    (hts : List.Forall₂ (fun s t => mkLBTrace df x s = Except.ok t) series ts) :
    ts.any (fun t => t.secondaryY) = series.any (fun s => s.axis == "Right") := by
  induction hts with
  | nil => rfl
  | cons hst hrest ih =>
    rcases mkLBTrace_ok_fields df x _ _ hst with ⟨_, _, hsec, _, _⟩
    simp only [List.any_cons, hsec, ih]

/-- C5: in a successful combination-chart build, some trace sits on the
secondary (right) axis exactly when some series asked for the right axis;
an all-left series list leaves the secondary axis without any trace. -/
theorem secondary_axis_iff_right_series (df : Dataset) (x title : String)
    (bt : Option String) (series : List LBSeries) (fig : Figure)
    (h : preview_line_bar_chart df x title bt series = Except.ok fig) :
    fig.traces.any (fun t => t.secondaryY) = series.any (fun s => s.axis == "Right") := by
  rcases preview_line_bar_ok_elim df x title bt series fig h with ⟨ts, hts, rfl⟩
  exact forall₂_any_secondary df x series ts hts

theorem secondary_axis_iff_right_series_witness :
    exComboFig.traces.any (fun t => t.secondaryY) =
      List.any [exSeriesLine, exSeriesBarR] (fun s => s.axis == "Right") :=
  secondary_axis_iff_right_series exDf "x" "T" none [exSeriesLine, exSeriesBarR]
    exComboFig rfl

/-- C6: a successful combination-chart build has exactly one trace per series,
in the input series order, each trace a line for a "Line" series and a bar for
a "Bar" series, carrying that series' column as its name. -/
theorem combo_trace_per_series (df : Dataset) (x title : String) (bt : Option String)
    (series : List LBSeries) (fig : Figure)
    (h : preview_line_bar_chart df x title bt series = Except.ok fig) :
    fig.traces.length = series.length ∧
    ∀ i (hi : i < fig.traces.length) (hj : i < series.length),
      ((series.get ⟨i, hj⟩).type = "Line" →
        (fig.traces.get ⟨i, hi⟩).kind = TraceKind.line) ∧
      ((series.get ⟨i, hj⟩).type = "Bar" →
        (fig.traces.get ⟨i, hi⟩).kind = TraceKind.bar) ∧
      (fig.traces.get ⟨i, hi⟩).name = (series.get ⟨i, hj⟩).column := by
  rcases preview_line_bar_ok_elim df x title bt series fig h with ⟨ts, hts, rfl⟩
  have hlen := hts.length_eq
  refine ⟨hlen.symm, ?_⟩
  intro i hi hj
  have hR := (List.forall₂_iff_get.mp hts).2 i hj hi
  rcases mkLBTrace_ok_fields df x _ _ hR with ⟨hkind, hname, _, _, _⟩
  refine ⟨?_, ?_, hname⟩
  · intro hL
    rw [hkind, if_pos hL]
  · intro hB
    rw [hkind, if_neg (by rw [hB]; decide)]

theorem combo_trace_per_series_witness :
    exComboFig.traces.length = List.length [exSeriesLine, exSeriesBarR] :=
  (combo_trace_per_series exDf "x" "T" none [exSeriesLine, exSeriesBarR] exComboFig rfl).1

/-- C7: in both the combination and the horizontal-bar builder, the bar type
"Stacked Bars" sets the layout bar mode to "stack" and any other bar type
(grouped or absent) leaves it at the renderer default (none); for otherwise
identical input, two successful builds differ in nothing but that layout
field. -/
theorem bar_mode_stack_behaviour (df : Dataset) (x title : String)
    (bt bt' : Option String) (series : List LBSeries) (hseries : List HBSeries) :
    (∀ fig, preview_line_bar_chart df x title bt series = Except.ok fig →
      fig.barmode = (if bt = some "Stacked Bars" then some "stack" else none) ∧
      ∀ fig', preview_line_bar_chart df x title bt' series = Except.ok fig' →
        fig.traces = fig'.traces ∧ fig.title = fig'.title ∧
        fig.secondaryYSpec = fig'.secondaryYSpec) ∧
    (∀ fig, preview_horizontal_bar_chart df x title bt hseries = Except.ok fig →
      fig.barmode = (if bt = some "Stacked Bars" then some "stack" else none) ∧
      ∀ fig', preview_horizontal_bar_chart df x title bt' hseries = Except.ok fig' →
        fig.traces = fig'.traces ∧ fig.title = fig'.title ∧
        fig.secondaryYSpec = fig'.secondaryYSpec) := by
  constructor
  · intro fig h
    rcases preview_line_bar_ok_elim df x title bt series fig h with ⟨ts, hts, rfl⟩
    refine ⟨rfl, ?_⟩
    intro fig' h'
    rcases preview_line_bar_ok_elim df x title bt' series fig' h' with ⟨ts', hts', rfl⟩
    rw [forall₂_ok_unique (fun s => mkLBTrace df x s) series ts ts' hts hts']
    exact ⟨rfl, rfl, rfl⟩
  · intro fig h
    rcases preview_hb_ok_elim df x title bt hseries fig h with ⟨ts, hts, rfl⟩
    refine ⟨rfl, ?_⟩
    intro fig' h'
    rcases preview_hb_ok_elim df x title bt' hseries fig' h' with ⟨ts', hts', rfl⟩
    rw [forall₂_ok_unique (fun s => mkHBTrace df x s) hseries ts ts' hts hts']
    exact ⟨rfl, rfl, rfl⟩

theorem bar_mode_stack_behaviour_witness :
    exComboFigStacked.barmode =
      (if (some "Stacked Bars" : Option String) = some "Stacked Bars"
        then some "stack" else none) :=
  ((bar_mode_stack_behaviour exDf "x" "T" (some "Stacked Bars") none
    [exSeriesLine, exSeriesBarR] [exHBSeries]).1 exComboFigStacked rfl).1

/-- C9: a combination-chart build in which some series references a column
absent from the dataset never returns a figure: it fails, and the failure is
the column-not-found error. -/
theorem combo_column_not_found (df : Dataset) (x title : String) (bt : Option String)
    (series : List LBSeries)
    (h : ∃ s, s ∈ series ∧ df.cols.lookup s.column = none) :
    exceptIsOk (preview_line_bar_chart df x title bt series) = false ∧
    ∃ c, preview_line_bar_chart df x title bt series =
      Except.error (BuildError.columnNotFound c) := by
  rcases h with ⟨s, hs, hnone⟩
  cases hres : preview_line_bar_chart df x title bt series with
  | ok fig =>
    exfalso
    rcases preview_line_bar_ok_elim df x title bt series fig hres with ⟨ts, hts, _⟩
    rcases List.mem_iff_get.mp hs with ⟨i, hi⟩
    have hR := (List.forall₂_iff_get.mp hts).2 i.1 i.2 (hts.length_eq ▸ i.2)
    rcases mkLBTrace_ok_fields df x _ _ hR with ⟨_, _, _, ⟨v, hv, _⟩, _⟩
    rw [hi, hnone] at hv
    simp at hv
  | error e =>
    cases e with
    | columnNotFound c =>
      exact ⟨rfl, ⟨c, rfl⟩⟩

theorem combo_column_not_found_witness :
    exceptIsOk (preview_line_bar_chart exDf "x" "" none [exSeriesBad]) = false :=
  (combo_column_not_found exDf "x" "" none [exSeriesBad]
    ⟨exSeriesBad, by decide, by decide⟩).1

theorem mem_insertKey (a x : Int) : ∀ l : List Int, a ∈ insertKey x l ↔ a = x ∨ a ∈ l := by
  intro l
  induction l with
  | nil => simp [insertKey]
  | cons y ys ih =>
    simp only [insertKey]
    split
    · simp [List.mem_cons]
    · simp only [List.mem_cons, ih]
      tauto

theorem mem_sortKeys (a : Int) : ∀ l : List Int, a ∈ sortKeys l ↔ a ∈ l := by
  intro l
  induction l with
  | nil => simp [sortKeys]
  | cons y ys ih =>
    show a ∈ insertKey y (sortKeys ys) ↔ a ∈ y :: ys
    rw [mem_insertKey, ih]
    simp [List.mem_cons]

theorem mem_insertDesc (a x : Int × Int) :
    ∀ l, a ∈ insertDesc x l ↔ a = x ∨ a ∈ l := by
  intro l
  induction l with
  | nil => simp [insertDesc]
  | cons y ys ih =>
    simp only [insertDesc]
    split
    · simp [List.mem_cons]
    · simp only [List.mem_cons, ih]
      tauto

theorem perm_insertDesc (x : Int × Int) : ∀ l, (insertDesc x l).Perm (x :: l) := by
  intro l
  induction l with
  | nil => exact List.Perm.refl _
  | cons y ys ih =>
    simp only [insertDesc]
    split
    · exact List.Perm.refl _
    · exact (ih.cons y).trans (List.Perm.swap x y ys)

theorem perm_sortDescByVal : ∀ l, (sortDescByVal l).Perm l := by
  intro l
  induction l with
  | nil => exact List.Perm.refl _
  | cons x xs ih =>
    show (insertDesc x (sortDescByVal xs)).Perm (x :: xs)
    exact (perm_insertDesc x (sortDescByVal xs)).trans (ih.cons x)

theorem pairwise_insertDesc (x : Int × Int) :
    ∀ l, List.Pairwise (fun a b : Int × Int => b.2 ≤ a.2) l →
      List.Pairwise (fun a b : Int × Int => b.2 ≤ a.2) (insertDesc x l) := by
  intro l
  induction l with
  | nil => intro _; simp [insertDesc]
  | cons y ys ih =>
    intro hp
    rcases List.pairwise_cons.mp hp with ⟨hy, hys⟩
    simp only [insertDesc]
    split
    · rename_i hle
      refine List.pairwise_cons.mpr ⟨?_, hp⟩
      intro b hb
      rcases List.mem_cons.mp hb with rfl | hb'
      · exact hle
      · exact le_trans (hy b hb') hle
    · rename_i hgt
      refine List.pairwise_cons.mpr ⟨?_, ih hys⟩
      intro b hb
      rcases (mem_insertDesc b x ys).mp hb with rfl | hb'
      · exact le_of_lt (lt_of_not_le hgt)
      · exact hy b hb'

theorem pairwise_sortDescByVal :
    ∀ l, List.Pairwise (fun a b : Int × Int => b.2 ≤ a.2) (sortDescByVal l) := by
  intro l
  induction l with
  | nil => simp [sortDescByVal]
  | cons x xs ih =>
    show List.Pairwise _ (insertDesc x (sortDescByVal xs))
    exact pairwise_insertDesc x (sortDescByVal xs) ih

theorem nlargest_dominates (n : Nat) (l : List (Int × Int)) :
    ∀ x ∈ nlargest n l, ∀ y ∈ l, y ∉ nlargest n l → y.2 ≤ x.2 := by
  intro x hx y hy hyn
  have hpw := pairwise_sortDescByVal l
  have hy' : y ∈ sortDescByVal l := (perm_sortDescByVal l).mem_iff.mpr hy
  rw [← List.take_append_drop n (sortDescByVal l)] at hpw hy'
  rcases List.pairwise_append.mp hpw with ⟨_, _, hcross⟩
  rcases List.mem_append.mp hy' with hyt | hyd
  · exact absurd hyt hyn
  · exact hcross x hx y hyd

theorem nlargest_subset (n : Nat) (l : List (Int × Int)) :
    ∀ p ∈ nlargest n l, p ∈ l := by
  intro p hp
  exact (perm_sortDescByVal l).mem_iff.mp
    ((List.take_sublist n (sortDescByVal l)).subset hp)

theorem mem_pieGroups (rows : List (Int × Int)) (p : Int × Int) :
    p ∈ pieGroups rows ↔ p.1 ∈ rows.map Prod.fst ∧ p.2 = sumVals rows p.1 := by
  unfold pieGroups
  rw [List.mem_map]
  constructor
  · rintro ⟨k, hk, rfl⟩
    rw [mem_sortKeys, List.mem_dedup] at hk
    exact ⟨hk, rfl⟩
  · rintro ⟨h1, h2⟩
    refine ⟨p.1, ?_, ?_⟩
    · rw [mem_sortKeys, List.mem_dedup]
      exact h1
    · cases p with
    | mk a b =>
      simp only at h2
      simp [h2]

theorem pairwise_insertKey (x : Int) :
    ∀ l, x ∉ l → List.Pairwise (fun a b : Int => a < b) l →
      List.Pairwise (fun a b : Int => a < b) (insertKey x l) := by
  intro l
  induction l with
  | nil => intro _ _; simp [insertKey]
  | cons y ys ih =>
    intro hx hp
    rcases List.pairwise_cons.mp hp with ⟨hy, hys⟩
    simp only [insertKey]
    split
    · rename_i hlt
      refine List.pairwise_cons.mpr ⟨?_, hp⟩
      intro b hb
      rcases List.mem_cons.mp hb with rfl | hb'
      · exact hlt
      · exact lt_trans hlt (hy b hb')
    · rename_i hnlt
      have hne : x ≠ y := fun h => hx (by rw [h]; exact List.mem_cons_self y ys)
      have hxy : y < x := lt_of_le_of_ne (not_lt.mp hnlt) (Ne.symm hne)
      refine List.pairwise_cons.mpr
        ⟨?_, ih (fun h => hx (List.mem_cons_of_mem y h)) hys⟩
      intro b hb
      rcases (mem_insertKey b x ys).mp hb with rfl | hb'
      · exact hxy
      · exact hy b hb'

theorem pairwise_sortKeys : ∀ l : List Int, l.Nodup →
    List.Pairwise (fun a b : Int => a < b) (sortKeys l) := by
  intro l
  induction l with
  | nil => intro _; simp [sortKeys]
  | cons x xs ih =>
    intro hnd
    rcases List.nodup_cons.mp hnd with ⟨hx, hxs⟩
    show List.Pairwise _ (insertKey x (sortKeys xs))
    exact pairwise_insertKey x (sortKeys xs) (fun h => hx ((mem_sortKeys x xs).mp h)) (ih hxs)

theorem pieGroups_keys_ascending (rows : List (Int × Int)) :
    List.Pairwise (fun a b : Int × Int => a.1 < b.1) (pieGroups rows) := by
  unfold pieGroups
  rw [List.pairwise_map]
  simpa using pairwise_sortKeys (rows.map Prod.fst).dedup (List.nodup_dedup _)

theorem pairwise_lex_insertDesc (x : Int × Int) :
    ∀ l, (∀ y ∈ l, x.1 < y.1) →
      List.Pairwise (fun a b : Int × Int => b.2 < a.2 ∨ (a.2 = b.2 ∧ a.1 < b.1)) l →
      List.Pairwise (fun a b : Int × Int => b.2 < a.2 ∨ (a.2 = b.2 ∧ a.1 < b.1))
        (insertDesc x l) := by
  intro l
  induction l with
  | nil => intro _ _; simp [insertDesc]
  | cons y ys ih =>
    intro hkey hp
    rcases List.pairwise_cons.mp hp with ⟨hy, hys⟩
    simp only [insertDesc]
    split
    · rename_i hle
      refine List.pairwise_cons.mpr ⟨?_, hp⟩
      intro b hb
      have hbx : x.1 < b.1 := hkey b hb
      have hble : b.2 ≤ x.2 := by
        rcases List.mem_cons.mp hb with rfl | hb'
        · exact hle
        · rcases hy b hb' with h | h
          · exact le_trans (le_of_lt h) hle
          · exact le_trans (le_of_eq h.1.symm) hle
      rcases lt_or_eq_of_le hble with h | h
      · exact Or.inl h
      · exact Or.inr ⟨h.symm, hbx⟩
    · rename_i hgt
      refine List.pairwise_cons.mpr
        ⟨?_, ih (fun b hb => hkey b (List.mem_cons_of_mem y hb)) hys⟩
      intro b hb
      rcases (mem_insertDesc b x ys).mp hb with rfl | hb'
      · exact Or.inl (lt_of_not_le hgt)
      · exact hy b hb'

theorem pairwise_lex_sortDescByVal :
    ∀ l, List.Pairwise (fun a b : Int × Int => a.1 < b.1) l →
      List.Pairwise (fun a b : Int × Int => b.2 < a.2 ∨ (a.2 = b.2 ∧ a.1 < b.1))
        (sortDescByVal l) := by
  intro l
  induction l with
  | nil => intro _; simp [sortDescByVal]
  | cons x xs ih =>
    intro hp
    rcases List.pairwise_cons.mp hp with ⟨hx, hxs⟩
    show List.Pairwise _ (insertDesc x (sortDescByVal xs))
    refine pairwise_lex_insertDesc x (sortDescByVal xs) ?_ (ih hxs)
    intro y hy
    exact hx y ((perm_sortDescByVal xs).mem_iff.mp hy)

theorem nlargest_lex_sorted (n : Nat) (rows : List (Int × Int)) :
    List.Pairwise (fun a b : Int × Int => b.2 < a.2 ∨ (a.2 = b.2 ∧ a.1 < b.1))
      (nlargest n (pieGroups rows)) :=
  (pairwise_lex_sortDescByVal (pieGroups rows) (pieGroups_keys_ascending rows)).sublist
    (List.take_sublist n _)

theorem nlargest_tie_break (n : Nat) (rows : List (Int × Int)) :
    ∀ x ∈ nlargest n (pieGroups rows), ∀ y ∈ pieGroups rows,
      y ∉ nlargest n (pieGroups rows) → y.2 = x.2 → x.1 < y.1 := by
  intro x hx y hy hyn heq
  have hpw := pairwise_lex_sortDescByVal (pieGroups rows) (pieGroups_keys_ascending rows)
  have hy' : y ∈ sortDescByVal (pieGroups rows) := (perm_sortDescByVal _).mem_iff.mpr hy
  rw [← List.take_append_drop n (sortDescByVal (pieGroups rows))] at hpw hy'
  rcases List.pairwise_append.mp hpw with ⟨_, _, hcross⟩
  rcases List.mem_append.mp hy' with hyt | hyd
  · exact absurd hyt hyn
  · rcases hcross x hx y hyd with h | h
    · exact absurd heq.symm (ne_of_gt h)
    · exact h.2


/-- C3 counterexample: on the dataset with rows (label 2, value 5) then
(label 1, value 5), both groups sum to 5, so the claim's tie-break
("first-encountered group order in the dataset") would keep group 2 under
topN = 1, but the code's grouping sorts groups by label and `nlargest`
resolves ties toward the earlier row of that sorted frame, keeping group 1. -/
theorem pie_tiebreak_counterexample :
    nlargest 1 (pieGroups [((2 : Int), (5 : Int)), (1, 5)]) = [(1, 5)] ∧
    claimTopN 1 [((2 : Int), (5 : Int)), (1, 5)] = [(2, 5)] ∧
    preview_pie_donut_chart ⟨[("lab", [2, 1]), ("val", [5, 5])]⟩ "lab" "val" "" "Pie"
        (some 1) "Blue-Grey" =
      Except.ok { labels := [1], values := [5], hole := 0, title := "" } ∧
    ((1 : Int), (5 : Int)) ≠ ((2 : Int), (5 : Int)) :=
  ⟨rfl, rfl, rfl, by decide⟩

/-- C3 amended: for every dataset, the pie/donut builder groups rows by the
labels column summing the values column per group (the spec's example yields
groups \x7bA: 15, B: 3\x7d), and emits the groups in strictly ascending label
order because the grouping sorts group keys; when topN is supplied the
builder keeps exactly the topN groups of largest summed value, with ties
broken stably by that sorted ascending-label order — not by
first-encountered dataset order: any tied group that is dropped has a larger
label than every tied group that is kept, and the kept groups are ordered by
descending value with equal values in ascending label order; discarded
groups are simply omitted, with no synthesized "other" bucket (topN = 1 on
the example yields only \x7bA: 15\x7d). -/
theorem pie_aggregation_amended (rows : List (Int × Int)) (n : Nat) :
    (∀ p ∈ pieGroups rows, p.1 ∈ rows.map Prod.fst ∧ p.2 = sumVals rows p.1) ∧
    (∀ k ∈ rows.map Prod.fst, (k, sumVals rows k) ∈ pieGroups rows) ∧
    (∀ x ∈ nlargest n (pieGroups rows), ∀ y ∈ pieGroups rows,
      y ∉ nlargest n (pieGroups rows) → y.2 ≤ x.2) ∧
    (∀ p ∈ nlargest n (pieGroups rows), p ∈ pieGroups rows) ∧
    (nlargest n (pieGroups rows)).length = min n (pieGroups rows).length ∧
    pieGroups [((0 : Int), (10 : Int)), (0, 5), (1, 3)] = [(0, 15), (1, 3)] ∧
    nlargest 1 (pieGroups [((0 : Int), (10 : Int)), (0, 5), (1, 3)]) = [(0, 15)] ∧
    preview_pie_donut_chart exPieDf "lab" "val" "t" "Pie" (some 1) "Blue-Grey" =
      Except.ok { labels := [0], values := [15], hole := 0, title := "t" } ∧
    List.Pairwise (fun a b : Int × Int => a.1 < b.1) (pieGroups rows) ∧
    (∀ x ∈ nlargest n (pieGroups rows), ∀ y ∈ pieGroups rows,
      y ∉ nlargest n (pieGroups rows) → y.2 = x.2 → x.1 < y.1) ∧
    List.Pairwise (fun a b : Int × Int => b.2 < a.2 ∨ (a.2 = b.2 ∧ a.1 < b.1))
      (nlargest n (pieGroups rows)) := by
  refine ⟨?_, ?_, nlargest_dominates n (pieGroups rows),
    nlargest_subset n (pieGroups rows), ?_, rfl, rfl, rfl,
    pieGroups_keys_ascending rows, nlargest_tie_break n rows, nlargest_lex_sorted n rows⟩
  · intro p hp
    exact (mem_pieGroups rows p).mp hp
  · intro k hk
    exact (mem_pieGroups rows (k, sumVals rows k)).mpr ⟨hk, rfl⟩
  · unfold nlargest
    rw [List.length_take, (perm_sortDescByVal (pieGroups rows)).length_eq]

theorem pie_aggregation_amended_witness :
    ((1 : Int), (3 : Int)).2 ≤ ((0 : Int), (15 : Int)).2 :=
  (pie_aggregation_amended [((0 : Int), (10 : Int)), (0, 5), (1, 3)] 1).2.2.1
    (0, 15) (by decide) (1, 3) (by decide) (by decide)

/-- C4 counterexample: an unrecognized colour-theme name neither fails the
build nor changes the output — the build with theme "ThisIsNotATheme"
succeeds and equals the build with the recognized theme "Blue-Grey",
contradicting both the required failure and the palette selection. -/
theorem colour_theme_counterexample :
    preview_pie_donut_chart exPieDf "lab" "val" "" "Donut" none "ThisIsNotATheme" =
      Except.ok { labels := [0, 1], values := [15, 3], hole := donutHole, title := "" } ∧
    preview_pie_donut_chart exPieDf "lab" "val" "" "Donut" none "ThisIsNotATheme" =
      preview_pie_donut_chart exPieDf "lab" "val" "" "Donut" none "Blue-Grey" :=
  ⟨rfl, rfl⟩

/-- C4 amended: the interactive interface offers the colour theme from the
fixed closed set \x7bBlue-Grey, Yellow-Green, Red-Orange\x7d, but the pie/donut
builder ignores the theme argument entirely: it applies no palette and
performs no validation, producing identical output for any two theme
strings, recognized or not. -/
theorem colour_theme_ignored (df : Dataset) (labels values title chartType : String)
    (li : Option Nat) (t₁ t₂ : String) :
    preview_pie_donut_chart df labels values title chartType li t₁ =
      preview_pie_donut_chart df labels values title chartType li t₂ := rfl

/-- C8: with all other inputs held constant, the "Donut" build differs from
the "Pie" build exactly in the hole fraction — 0.4 for the donut, 0 for the
pie — and in no other field. -/
theorem hole_fraction_donut_pie (df : Dataset) (labels values title : String)
    (li : Option Nat) (theme : String) :
    preview_pie_donut_chart df labels values title "Donut" li theme =
      (preview_pie_donut_chart df labels values title "Pie" li theme).map
        (fun f => { f with hole := donutHole }) ∧
    (∀ f, preview_pie_donut_chart df labels values title "Pie" li theme = Except.ok f →
      f.hole = 0) ∧
    (∀ f, preview_pie_donut_chart df labels values title "Donut" li theme = Except.ok f →
      f.hole = donutHole) ∧
    donutHole = 0.4 := by
  refine ⟨?_, ?_, ?_, rfl⟩
  · cases h1 : df.getCol labels with
    | error e => simp [preview_pie_donut_chart, h1, Except.map]
    | ok ls =>
      cases h2 : df.getCol values with
      | error e => simp [preview_pie_donut_chart, h1, h2, Except.map]
      | ok vs => simp [preview_pie_donut_chart, h1, h2, Except.map]
  · intro f hf
    cases h1 : df.getCol labels with
    | error e => simp [preview_pie_donut_chart, h1] at hf
    | ok ls =>
      cases h2 : df.getCol values with
      | error e => simp [preview_pie_donut_chart, h1, h2] at hf
      | ok vs =>
        simp only [preview_pie_donut_chart, h1, h2, Except.ok.injEq] at hf
        rw [← hf]
        simp
  · intro f hf
    cases h1 : df.getCol labels with
    | error e => simp [preview_pie_donut_chart, h1] at hf
    | ok ls =>
      cases h2 : df.getCol values with
      | error e => simp [preview_pie_donut_chart, h1, h2] at hf
      | ok vs =>
        simp only [preview_pie_donut_chart, h1, h2, Except.ok.injEq] at hf
        rw [← hf]
        simp

theorem hole_fraction_donut_pie_witness : exPiePlain.hole = 0 :=
  (hole_fraction_donut_pie exPieDf "lab" "val" "t" none "Blue-Grey").2.1 exPiePlain rfl
